import Mathlib

/-!
Verification of the awless template PEG parser
(src/template/ast/awless-template-syntax.peg.go).

The Go file is a pointlander/peg generated recursive-descent matcher.  All
state lives in `Peg.Init`: the rune buffer (input plus a sentinel,
captured once by the closures and never mutated), the current `position`,
the `tokenIndex`, the token store `tree` (written at index `tokenIndex` by
the `add` closure, never erased), and the furthest token slot `max`.
Every grammar rule is a Go function built from a small set of recurring
goto patterns:

* entry save / failure restore of `(position, tokenIndex)` — `withRestore`;
* `positionN := position ... add(rule, positionN)` capture — `capture`;
* ordered choice with save before the alternative and restore before the
  next one — `pchoice`;
* zero-or-more loops with per-iteration save/restore — `pstar` (with fuel:
  in the Go code every loop body consumes at least one rune when it
  succeeds, so a fuel of `buffer length + 2` is never exhausted);
* optional and negative lookahead — `popt`, `pnot`;
* the character primitives `matchDot`, `matchChar`, `matchRange`;
* zero-width semantic markers `add(ruleActionN, position)` — `emit`.

Runes are modelled as `Nat` code points because the sentinel 1114112 lies
outside `Char`'s range.  The immutable buffer is passed to the rules as an
explicit argument, mirroring the captured `buffer` variable of `Peg.Init`;
the mutable state `(position, tokenIndex, tree, max)` is threaded through
the matchers.  The token store is the zero-prefilled slice of the Go code,
written pointwise by `treeWrite` exactly like the slice write
`tree[index] = token` in `tokens32.Add`.
-/

namespace Ast

/-- The rune appended to every buffer, `endSymbol` in the Go source
(value 1114112, one past the largest Unicode scalar). -/
def endSymbol : Nat := 1114112

/-- The closed rule enumeration `pegRule` from the Go source, same order. -/
inductive Rule where
  | Unknown
  | Script
  | Statement
  | Action
  | Entity
  | Declaration
  | Expr
  | Params
  | Param
  | Identifier
  | Value
  | StringValue
  | CidrValue
  | IpValue
  | IntValue
  | IntRangeValue
  | RefValue
  | AliasValue
  | HoleValue
  | Comment
  | Spacing
  | WhiteSpacing
  | MustWhiteSpacing
  | Equal
  | Space
  | Whitespace
  | EndOfLine
  | EndOfFile
  | PegText
  | Action0
  | Action1
  | Action2
  | Action3
  | Action4
  | Action5
  | Action6
  | Action7
  | Action8
  | Action9
  | Action10
  | Action11
  | Action12
  | Action13
deriving DecidableEq, Repr

/-- `token32` from the Go source: a rule with a half-open span.
The Go field `end` is spelled `endPos` (`end` is reserved in Lean). -/
structure Token where
  rule : Rule
  begin : Nat
  endPos : Nat
deriving DecidableEq, Repr

/-- The zero value of `token32` (Go zero-initialises the store and `max`). -/
def Token.zero : Token := ⟨Rule.Unknown, 0, 0⟩

/-- The mutable parser state of `Peg.Init`: `position`, `tokenIndex`, the
token store `tree` and the furthest token slot `max`.  The Go store is a
zero-prefilled array written at `tree[index]`; it is modelled as the list
of entries written so far, extended with zero tokens whenever an index
beyond the end is written (`treeWrite`). -/
structure S where
  position : Nat
  tokenIndex : Nat
  tree : List Token
  max : Token
deriving Repr

/-- A matcher: the Go rule functions return a `bool` and mutate the state
in place; here they return the flag and the updated state. -/
abbrev M := S → Bool × S

/-- `buffer[position]` (out of range never happens in reachable states;
the sentinel is returned there to keep the function total). -/
def bufAt (b : List Nat) (pos : Nat) : Nat := b.getD pos endSymbol

/-- Restore `(position, tokenIndex)` to saved values, leaving the token
store and `max` untouched — the Go assignment
`position, tokenIndex = positionN, tokenIndexN`. -/
def restoreS (s : S) (pos tok : Nat) : S :=
  { s with position := pos, tokenIndex := tok }

/-- The slice write `tree[index] = token` of `tokens32.Add` on the
zero-prefilled store: overwrite when the index was already written, else
pad with zero tokens up to the index and place the token there (the Go
pre-allocation and doubling growth provide exactly these zero entries). -/
def treeWrite (l : List Token) (i : Nat) (t : Token) : List Token :=
  if i < l.length then l.set i t
  else l ++ List.replicate (i - l.length) Token.zero ++ [t]

/-- The `add` closure of `Peg.Init`: store `(rule, begin, position)` at
`tree[tokenIndex]`, increment `tokenIndex`, and update `max` when the new
token is non-empty and reaches strictly beyond `max.end`. -/
def add (r : Rule) (b : Nat) (s : S) : S :=
  let t : Token := ⟨r, b, s.position⟩
  let s1 : S := { s with tree := treeWrite s.tree s.tokenIndex t,
                         tokenIndex := s.tokenIndex + 1 }
  if b ≠ s.position ∧ s.max.endPos < s.position then { s1 with max := t } else s1

/-- `matchDot`: consume one rune unless it is the sentinel. -/
def matchDot (b : List Nat) (s : S) : Bool × S :=
  if bufAt b s.position ≠ endSymbol then (true, { s with position := s.position + 1 })
  else (false, s)

/-- The inlined `buffer[position] != rune(c)` / `position++` pattern. -/
def matchChar (c : Nat) (b : List Nat) (s : S) : Bool × S :=
  if bufAt b s.position = c then (true, { s with position := s.position + 1 })
  else (false, s)

/-- The inlined `c := buffer[position]; c < lo || c > hi` pattern. -/
def matchRange (lo hi : Nat) (b : List Nat) (s : S) : Bool × S :=
  if lo ≤ bufAt b s.position ∧ bufAt b s.position ≤ hi then
    (true, { s with position := s.position + 1 })
  else (false, s)

/-- Sequencing: failure of the first part skips the second; no restore of
its own (the enclosing choice / rule label restores). -/
def pseq (p q : M) (s : S) : Bool × S :=
  match p s with
  | (true, s1) => q s1
  | (false, s1) => (false, s1)

/-- Ordered choice: save `(position, tokenIndex)`, try the first
alternative, restore the pair before running the second. -/
def pchoice (p q : M) (s : S) : Bool × S :=
  match p s with
  | (true, s1) => (true, s1)
  | (false, s1) => q (restoreS s1 s.position s.tokenIndex)

/-- Optional part `p?`: always succeeds, restoring the saved pair when the
body failed. -/
def popt (p : M) (s : S) : Bool × S :=
  match p s with
  | (true, s1) => (true, s1)
  | (false, s1) => (true, restoreS s1 s.position s.tokenIndex)

/-- Negative lookahead `!p`: succeeds without consuming iff `p` fails; when
`p` succeeds the consumed runes are rolled back by the enclosing label,
exactly as in the generated gotos. -/
def pnot (p : M) (s : S) : Bool × S :=
  match p s with
  | (true, s1) => (false, s1)
  | (false, s1) => (true, restoreS s1 s.position s.tokenIndex)

/-- Zero-or-more loop with per-iteration save/restore.  The fuel bounds the
iteration count; callers pass more fuel than the buffer length, and every
loop body in this grammar consumes at least one rune on success. -/
def pstar (p : M) : Nat → M
  | 0, s => (true, s)
  | Nat.succ n, s =>
    match p s with
    | (true, s1) => pstar p n s1
    | (false, s1) => (true, restoreS s1 s.position s.tokenIndex)

/-- The `positionN := position ... add(rule, positionN)` capture pattern:
on success a token for the consumed span is recorded; on failure nothing is
restored here (the enclosing label does it). -/
def capture (r : Rule) (p : M) (s : S) : Bool × S :=
  match p s with
  | (true, s1) => (true, add r s.position s1)
  | (false, s1) => (false, s1)

/-- Entry save / failure restore wrapper shared by every top-level rule
function in the `_rules` array. -/
def withRestore (p : M) (s : S) : Bool × S :=
  match p s with
  | (true, s1) => (true, s1)
  | (false, s1) => (false, restoreS s1 s.position s.tokenIndex)

/-- A top-level rule function: capture plus entry save / failure restore. -/
def withRule (r : Rule) (p : M) (s : S) : Bool × S := withRestore (capture r p) s

/-- A zero-width semantic marker: `add(ruleActionN, position)`. -/
def emit (r : Rule) (s : S) : Bool × S := (true, add r s.position s)

/-- Literal matching, one `matchChar` per rune, failing mid-way without
restoring (the enclosing label restores) — the generated
`if buffer[position] != rune(c) { goto lN }; position++` chains. -/
def lit : List Nat → List Nat → S → Bool × S
  | [], _, s => (true, s)
  | c :: cs, b, s =>
    match matchChar c b s with
    | (true, s1) => lit cs b s1
    | (false, s1) => (false, s1)

/-- Code points of a Lean string, for writing buffers and literals. -/
def str (s : String) : List Nat := s.data.map Char.toNat

/-- The buffer normalisation in the `reset` closure: append the sentinel
unless it is already the final rune. -/
def mkBuffer (l : List Nat) : List Nat :=
  if l = [] ∨ l.getLast? ≠ some endSymbol then l ++ [endSymbol] else l

/-- The sentinel-terminated buffer of an input string. -/
def buf (input : String) : List Nat := mkBuffer (str input)

/-- Fresh mutable state, as set by the `reset` closure. -/
def initS : S := { position := 0, tokenIndex := 0, tree := [], max := Token.zero }

/-- The trimmed token list `Trim(tokenIndex); Tokens()`: the first
`tokenIndex` entries of the zero-prefilled store in index order. -/
def tokensList (s : S) : List Token :=
  (List.range s.tokenIndex).map (fun i => s.tree.getD i Token.zero)

/-! ### The grammar rules, bottom-up (the `_rules` array and its inlined
productions).  Rules containing loops take the fuel as a parameter;
every rule takes the buffer `b` and the state `s` explicitly. -/

/-- Rule 24 `Whitespace <- (' ' / '\t')`. -/
def whitespace (b : List Nat) (s : S) : Bool × S :=
  withRule Rule.Whitespace
    (pchoice (matchChar (Char.toNat ' ') b) (matchChar (Char.toNat '\t') b)) s

/-- Rule 25 `EndOfLine <- ('\r' '\n') / '\n' / '\r'`. -/
def endOfLine (b : List Nat) (s : S) : Bool × S :=
  withRule Rule.EndOfLine
    (pchoice (pseq (matchChar 13 b) (matchChar 10 b))
      (pchoice (matchChar 10 b) (matchChar 13 b))) s

/-- Rule 23 `Space <- (Whitespace / EndOfLine)`, inlined inside `Spacing`
(capture only: its failure propagates to the loop-exit restore). -/
def space (b : List Nat) (s : S) : Bool × S :=
  capture Rule.Space (pchoice (whitespace b) (endOfLine b)) s

/-- Rule 19 `Spacing <- Space*` (never fails, no entry save needed). -/
def spacing (fuel : Nat) (b : List Nat) (s : S) : Bool × S :=
  capture Rule.Spacing (pstar (space b) fuel) s

/-- Rule 20 `WhiteSpacing <- Whitespace*` (never fails). -/
def whiteSpacing (fuel : Nat) (b : List Nat) (s : S) : Bool × S :=
  capture Rule.WhiteSpacing (pstar (whitespace b) fuel) s

/-- Rule 21 `MustWhiteSpacing <- Whitespace+`. -/
def mustWhiteSpacing (fuel : Nat) (b : List Nat) (s : S) : Bool × S :=
  withRule Rule.MustWhiteSpacing (pseq (whitespace b) (pstar (whitespace b) fuel)) s

/-- Rule 22 `Equal <- Spacing '=' Spacing`. -/
def equal (fuel : Nat) (b : List Nat) (s : S) : Bool × S :=
  withRule Rule.Equal
    (pseq (spacing fuel b) (pseq (matchChar (Char.toNat '=') b) (spacing fuel b))) s

/-- One identifier rune: the generated `switch buffer[position]` with cases
for '.', '_', '-', the upper-case letters, and a default checking
`[a-z]` — digits fall to the default and fail. -/
def identChar (b : List Nat) (s : S) : Bool × S :=
  let c := bufAt b s.position
  if c = Char.toNat '.' then matchChar (Char.toNat '.') b s
  else if c = Char.toNat '_' then matchChar (Char.toNat '_') b s
  else if c = Char.toNat '-' then matchChar (Char.toNat '-') b s
  else if Char.toNat 'A' ≤ c ∧ c ≤ Char.toNat 'Z' then
    matchRange (Char.toNat 'A') (Char.toNat 'Z') b s
  else matchRange (Char.toNat 'a') (Char.toNat 'z') b s

/-- Rule 8 `Identifier <- identChar+`. -/
def identifier (fuel : Nat) (b : List Nat) (s : S) : Bool × S :=
  withRule Rule.Identifier (pseq (identChar b) (pstar (identChar b) fuel)) s

/-- One `StringValue` rune: the generated switch with cases '/', ':', '_',
'.', '-', digits, upper-case letters, default `[a-z]`. -/
def stringChar (b : List Nat) (s : S) : Bool × S :=
  let c := bufAt b s.position
  if c = Char.toNat '/' then matchChar (Char.toNat '/') b s
  else if c = Char.toNat ':' then matchChar (Char.toNat ':') b s
  else if c = Char.toNat '_' then matchChar (Char.toNat '_') b s
  else if c = Char.toNat '.' then matchChar (Char.toNat '.') b s
  else if c = Char.toNat '-' then matchChar (Char.toNat '-') b s
  else if Char.toNat '0' ≤ c ∧ c ≤ Char.toNat '9' then
    matchRange (Char.toNat '0') (Char.toNat '9') b s
  else if Char.toNat 'A' ≤ c ∧ c ≤ Char.toNat 'Z' then
    matchRange (Char.toNat 'A') (Char.toNat 'Z') b s
  else matchRange (Char.toNat 'a') (Char.toNat 'z') b s

/-- One digit `[0-9]`. -/
def digit (b : List Nat) (s : S) : Bool × S :=
  matchRange (Char.toNat '0') (Char.toNat '9') b s

/-- `[0-9]+`. -/
def digits (fuel : Nat) (b : List Nat) (s : S) : Bool × S :=
  pseq (digit b) (pstar (digit b) fuel) s

/-- The keyword switch closing the `Action` alternation: exact-literal
cases on the first rune for 'd'etach / 'c'heck / 'a'ttach / 'u'pdate and a
default matching "stop". -/
def actionSwitch (b : List Nat) (s : S) : Bool × S :=
  let c := bufAt b s.position
  if c = Char.toNat 'd' then lit (str ("detach")) b s
  else if c = Char.toNat 'c' then lit (str ("check")) b s
  else if c = Char.toNat 'a' then lit (str ("attach")) b s
  else if c = Char.toNat 'u' then lit (str ("update")) b s
  else lit (str ("stop")) b s

/-- Rule 2 `Action` body: "create" / "delete" / "start" / switch. -/
def actionBody (b : List Nat) (s : S) : Bool × S :=
  pchoice (lit (str ("create")) b)
    (pchoice (lit (str ("delete")) b)
      (pchoice (lit (str ("start")) b) (actionSwitch b))) s

/-- The keyword switch closing the `Entity` alternation. -/
def entitySwitch (b : List Nat) (s : S) : Bool × S :=
  let c := bufAt b s.position
  if c = Char.toNat 'q' then lit (str ("queue")) b s
  else if c = Char.toNat 't' then lit (str ("topic")) b s
  else if c = Char.toNat 's' then lit (str ("subscription")) b s
  else if c = Char.toNat 'b' then lit (str ("bucket")) b s
  else if c = Char.toNat 'r' then lit (str ("route")) b s
  else if c = Char.toNat 'i' then lit (str ("internetgateway")) b s
  else if c = Char.toNat 'k' then lit (str ("keypair")) b s
  else if c = Char.toNat 'p' then lit (str ("policy")) b s
  else if c = Char.toNat 'g' then lit (str ("group")) b s
  else if c = Char.toNat 'u' then lit (str ("user")) b s
  else lit (str ("volume")) b s

/-- Rule 3 `Entity` body: the eight leading literal alternatives then the
switch. -/
def entityBody (b : List Nat) (s : S) : Bool × S :=
  pchoice (lit (str ("vpc")) b)
    (pchoice (lit (str ("subnet")) b)
      (pchoice (lit (str ("instance")) b)
        (pchoice (lit (str ("tag")) b)
          (pchoice (lit (str ("role")) b)
            (pchoice (lit (str ("securitygroup")) b)
              (pchoice (lit (str ("routetable")) b)
                (pchoice (lit (str ("storageobject")) b) (entitySwitch b)))))))) s

/-- Rule 11 `CidrValue <- [0-9]+ . [0-9]+ . [0-9]+ . [0-9]+ '/' [0-9]+`
(the separators are `matchDot`, the any-character primitive). -/
def cidrBody (fuel : Nat) (b : List Nat) (s : S) : Bool × S :=
  pseq (digits fuel b) (pseq (matchDot b) (pseq (digits fuel b) (pseq (matchDot b)
    (pseq (digits fuel b) (pseq (matchDot b) (pseq (digits fuel b)
      (pseq (matchChar (Char.toNat '/') b) (digits fuel b)))))))) s

/-- Rule 12 `IpValue <- [0-9]+ . [0-9]+ . [0-9]+ . [0-9]+`. -/
def ipBody (fuel : Nat) (b : List Nat) (s : S) : Bool × S :=
  pseq (digits fuel b) (pseq (matchDot b) (pseq (digits fuel b) (pseq (matchDot b)
    (pseq (digits fuel b) (pseq (matchDot b) (digits fuel b)))))) s

/-- Rule 14 `IntRangeValue <- [0-9]+ '-' [0-9]+`. -/
def rangeBody (fuel : Nat) (b : List Nat) (s : S) : Bool × S :=
  pseq (digits fuel b) (pseq (matchChar (Char.toNat '-') b) (digits fuel b)) s

/-- The leading-rune switch closing the `Value` alternation: RefValue on
'$', AliasValue on '@', HoleValue on '{', StringValue otherwise. -/
def valueSwitch (fuel : Nat) (b : List Nat) (s : S) : Bool × S :=
  let c := bufAt b s.position
  if c = Char.toNat '$' then
    pseq (capture Rule.RefValue
        (pseq (matchChar (Char.toNat '$') b) (capture Rule.PegText (identifier fuel b))))
      (emit Rule.Action7) s
  else if c = Char.toNat '@' then
    pseq (capture Rule.AliasValue
        (pseq (matchChar (Char.toNat '@') b) (capture Rule.PegText (identifier fuel b))))
      (emit Rule.Action6) s
  else if c = 123 then
    pseq (capture Rule.HoleValue
        (pseq (matchChar 123 b) (pseq (whiteSpacing fuel b)
          (pseq (capture Rule.PegText (identifier fuel b))
            (pseq (whiteSpacing fuel b) (matchChar 125 b))))))
      (emit Rule.Action5) s
  else
    pseq (capture Rule.PegText
        (capture Rule.StringValue (pseq (stringChar b) (pstar (stringChar b) fuel))))
      (emit Rule.Action12) s

/-- Rule 9 `Value`: ordered choice Cidr / Ip / IntRange / Int, then the
leading-rune switch; each numeric alternative is wrapped in `PegText` and
followed by its semantic marker. -/
def value (fuel : Nat) (b : List Nat) (s : S) : Bool × S :=
  capture Rule.Value
    (pchoice
      (pseq (capture Rule.PegText (capture Rule.CidrValue (cidrBody fuel b)))
        (emit Rule.Action8))
      (pchoice
        (pseq (capture Rule.PegText (capture Rule.IpValue (ipBody fuel b)))
          (emit Rule.Action9))
        (pchoice
          (pseq (capture Rule.PegText (capture Rule.IntRangeValue (rangeBody fuel b)))
            (emit Rule.Action10))
          (pchoice
            (pseq (capture Rule.PegText (capture Rule.IntValue (digits fuel b)))
              (emit Rule.Action11))
            (valueSwitch fuel b))))) s

/-- Rule 7 `Param <- <Identifier> Action4 Equal Value WhiteSpacing`. -/
def param (fuel : Nat) (b : List Nat) (s : S) : Bool × S :=
  capture Rule.Param
    (pseq (capture Rule.PegText (identifier fuel b))
      (pseq (emit Rule.Action4)
        (pseq (equal fuel b) (pseq (value fuel b) (whiteSpacing fuel b))))) s

/-- Rule 6 `Params <- Param+` (inlined in `Expr`: first occurrence then a
loop over the same body). -/
def params (fuel : Nat) (b : List Nat) (s : S) : Bool × S :=
  capture Rule.Params (pseq (param fuel b) (pstar (param fuel b) fuel)) s

/-- Rule 5 `Expr <- <Action> Action1 MustWhiteSpacing <Entity> Action2
(MustWhiteSpacing Params)? Action3`. -/
def expr (fuel : Nat) (b : List Nat) (s : S) : Bool × S :=
  withRule Rule.Expr
    (pseq (capture Rule.PegText (capture Rule.Action (actionBody b)))
      (pseq (emit Rule.Action1)
        (pseq (mustWhiteSpacing fuel b)
          (pseq (capture Rule.PegText (capture Rule.Entity (entityBody b)))
            (pseq (emit Rule.Action2)
              (pseq (popt (pseq (mustWhiteSpacing fuel b) (params fuel b)))
                (emit Rule.Action3))))))) s

/-- Rule 4 `Declaration <- <Identifier> Action0 Equal Expr` (inlined in
the `Statement` alternation). -/
def declaration (fuel : Nat) (b : List Nat) (s : S) : Bool × S :=
  capture Rule.Declaration
    (pseq (capture Rule.PegText (identifier fuel b))
      (pseq (emit Rule.Action0) (pseq (equal fuel b) (expr fuel b)))) s

/-- `(!EndOfLine .)*`, the comment body loop. -/
def commentTail (fuel : Nat) (b : List Nat) (s : S) : Bool × S :=
  pstar (pseq (pnot (endOfLine b)) (matchDot b)) fuel s

/-- Rule 18 `Comment <- '#' (!EndOfLine .)* / '/' '/' (!EndOfLine .)*
Action13` — only the slash form emits the statement-completion marker. -/
def comment (fuel : Nat) (b : List Nat) (s : S) : Bool × S :=
  capture Rule.Comment
    (pchoice (pseq (matchChar (Char.toNat '#') b) (commentTail fuel b))
      (pseq (matchChar (Char.toNat '/') b)
        (pseq (matchChar (Char.toNat '/') b)
          (pseq (commentTail fuel b) (emit Rule.Action13))))) s

/-- Rule 1 `Statement <- Spacing (Expr / Declaration / Comment) Spacing
EndOfLine*` (inlined in `Script`). -/
def statement (fuel : Nat) (b : List Nat) (s : S) : Bool × S :=
  capture Rule.Statement
    (pseq (spacing fuel b)
      (pseq (pchoice (expr fuel b) (pchoice (declaration fuel b) (comment fuel b)))
        (pseq (spacing fuel b) (pstar (endOfLine b) fuel)))) s

/-- Rule 26 `EndOfFile <- !.` (inlined in `Script`). -/
def endOfFile (b : List Nat) (s : S) : Bool × S :=
  capture Rule.EndOfFile (pnot (matchDot b)) s

/-- Rule 0 `Script <- Spacing Statement+ EndOfFile`: the grammar's top
rule, with the entry save / failure restore of its generated function. -/
def script (fuel : Nat) (b : List Nat) (s : S) : Bool × S :=
  withRule Rule.Script
    (pseq (spacing fuel b)
      (pseq (statement fuel b)
        (pseq (pstar (statement fuel b) fuel) (endOfFile b)))) s

/-- Fuel that no loop can exhaust: every loop body consumes at least one
rune when it succeeds and `position` never exceeds the buffer length. -/
def parseFuel (input : String) : Nat := (str input).length + 2

/-- Run the top rule on a fresh state, as `p.parse` does. -/
def runScript (input : String) : Bool × S :=
  script (parseFuel input) (buf input) initS

/-- `p.parse`: on success the trimmed token list, on failure `none`
(the Go code returns a `parseError` instead). -/
def parseTokens (input : String) : Option (List Token) :=
  let r := runScript input
  if r.1 then some (tokensList r.2) else none

/-! ### Executor (`Peg.Execute`) -/

/-- The semantic callback interface, one constructor per method the Go
executor invokes on the embedded `*AST` collaborator.  Text arguments are
rune lists. -/
inductive Callback where
  | addDeclarationIdentifier (text : List Nat)
  | addAction (text : List Nat)
  | addEntity (text : List Nat)
  | LineDone
  | addParamKey (text : List Nat)
  | addParamHoleValue (text : List Nat)
  | addParamAliasValue (text : List Nat)
  | addParamRefValue (text : List Nat)
  | addParamCidrValue (text : List Nat)
  | addParamIpValue (text : List Nat)
  | addParamValue (text : List Nat)
  | addParamIntValue (text : List Nat)
deriving DecidableEq, Repr

/-- `_buffer[begin:end]` as a rune list. -/
def substr (b : List Nat) (i j : Nat) : List Nat := (b.drop i).take (j - i)

/-- `Peg.Execute`: walk the token list once, updating the `text` register
at every `PegText` record and appending one callback per semantic marker;
all other rules are ignored.  The callback list is returned in invocation
order. -/
def Execute (buffer : List Nat) : List Token → List Nat → List Callback
  | [], _ => []
  | t :: rest, text =>
    match t.rule with
    | Rule.PegText => Execute buffer rest (substr buffer t.begin t.endPos)
    | Rule.Action0 => Callback.addDeclarationIdentifier text :: Execute buffer rest text
    | Rule.Action1 => Callback.addAction text :: Execute buffer rest text
    | Rule.Action2 => Callback.addEntity text :: Execute buffer rest text
    | Rule.Action3 => Callback.LineDone :: Execute buffer rest text
    | Rule.Action4 => Callback.addParamKey text :: Execute buffer rest text
    | Rule.Action5 => Callback.addParamHoleValue text :: Execute buffer rest text
    | Rule.Action6 => Callback.addParamAliasValue text :: Execute buffer rest text
    | Rule.Action7 => Callback.addParamRefValue text :: Execute buffer rest text
    | Rule.Action8 => Callback.addParamCidrValue text :: Execute buffer rest text
    | Rule.Action9 => Callback.addParamIpValue text :: Execute buffer rest text
    | Rule.Action10 => Callback.addParamValue text :: Execute buffer rest text
    | Rule.Action11 => Callback.addParamIntValue text :: Execute buffer rest text
    | Rule.Action12 => Callback.addParamValue text :: Execute buffer rest text
    | Rule.Action13 => Callback.LineDone :: Execute buffer rest text
    | _ => Execute buffer rest text

/-- Parse then execute: the callback sequence of a successful parse
(`text` starts empty as in the Go code). -/
def parseCallbacks (input : String) : Option (List Callback) :=
  let r := runScript input
  if r.1 then some (Execute (buf input) (tokensList r.2) []) else none

/-! ### Tree builder (`tokens32.AST`) -/

/-- A reconstructed syntax-tree node: the Go `node32` with its `up` chain
materialised as an ordered child list. -/
inductive Node where
  | mk (tok : Token) (children : List Node)

/-- The token of a node. -/
def Node.tok : Node → Token
  | .mk t _ => t

/-- The inner pop loop of `tokens32.AST`: pop every stack entry whose span
is contained in the current record's span, prepending each popped node to
the child accumulator (so the final child list keeps push order). -/
def popChildren (t : Token) : List Node → List Node → List Node × List Node
  | [], acc => (acc, [])
  | n :: rest, acc =>
    if t.begin ≤ n.tok.begin ∧ n.tok.endPos ≤ t.endPos
    then popChildren t rest (n :: acc)
    else (acc, n :: rest)

/-- The record loop of `tokens32.AST`: zero-width records are skipped;
each remaining record collects the contained stack prefix as its children
and is pushed. -/
def astLoop : List Token → List Node → List Node
  | [], stack => stack
  | t :: rest, stack =>
    if t.begin = t.endPos then astLoop rest stack
    else
      let pr := popChildren t stack []
      astLoop rest (Node.mk t pr.1 :: pr.2)

/-- `tokens32.AST`: the top of the final stack, or `nil` (`none`) when the
stack is empty. -/
def AST (tokens : List Token) : Option Node :=
  match astLoop tokens [] with
  | [] => none
  | n :: _ => some n

/-! ### Error reporter (`translatePositions`, `parseError.Error`) -/

/-- `textPosition` from the Go source: 1-based line, 1-based symbol. -/
structure textPosition where
  line : Nat
  symbol : Nat
deriving DecidableEq, Repr

/-- The forward scan of `translatePositions`: for every buffer index the
`(line, symbol)` pair after processing that rune — `line` starts at 1 and
is incremented only on `'\n'` (code 10), which resets `symbol` to 0;
every other rune increments `symbol`. -/
def positionScan : List Nat → Nat → Nat → Nat → List (Nat × textPosition)
  | [], _, _, _ => []
  | c :: rest, i, line, symbol =>
    if c = 10 then (i, ⟨line + 1, 0⟩) :: positionScan rest (i + 1) (line + 1) 0
    else (i, ⟨line, symbol + 1⟩) :: positionScan rest (i + 1) line (symbol + 1)

/-- `translatePositions` for a single offset: the scan entry at that
index (the Go map lookup; the `sort`/early-exit in the Go loop does not
change the resulting map). -/
def translatePosition (buffer : List Nat) (p : Nat) : textPosition :=
  match (positionScan buffer 0 1 0).find? (fun e => e.1 = p) with
  | some e => e.2
  | none => ⟨0, 0⟩

/-- The strings of the `rul3s` name table, for the diagnostic. -/
def rul3s : Rule → String
  | Rule.Unknown => "Unknown"
  | Rule.Script => "Script"
  | Rule.Statement => "Statement"
  | Rule.Action => "Action"
  | Rule.Entity => "Entity"
  | Rule.Declaration => "Declaration"
  | Rule.Expr => "Expr"
  | Rule.Params => "Params"
  | Rule.Param => "Param"
  | Rule.Identifier => "Identifier"
  | Rule.Value => "Value"
  | Rule.StringValue => "StringValue"
  | Rule.CidrValue => "CidrValue"
  | Rule.IpValue => "IpValue"
  | Rule.IntValue => "IntValue"
  | Rule.IntRangeValue => "IntRangeValue"
  | Rule.RefValue => "RefValue"
  | Rule.AliasValue => "AliasValue"
  | Rule.HoleValue => "HoleValue"
  | Rule.Comment => "Comment"
  | Rule.Spacing => "Spacing"
  | Rule.WhiteSpacing => "WhiteSpacing"
  | Rule.MustWhiteSpacing => "MustWhiteSpacing"
  | Rule.Equal => "Equal"
  | Rule.Space => "Space"
  | Rule.Whitespace => "Whitespace"
  | Rule.EndOfLine => "EndOfLine"
  | Rule.EndOfFile => "EndOfFile"
  | Rule.PegText => "PegText"
  | Rule.Action0 => "Action0"
  | Rule.Action1 => "Action1"
  | Rule.Action2 => "Action2"
  | Rule.Action3 => "Action3"
  | Rule.Action4 => "Action4"
  | Rule.Action5 => "Action5"
  | Rule.Action6 => "Action6"
  | Rule.Action7 => "Action7"
  | Rule.Action8 => "Action8"
  | Rule.Action9 => "Action9"
  | Rule.Action10 => "Action10"
  | Rule.Action11 => "Action11"
  | Rule.Action12 => "Action12"
  | Rule.Action13 => "Action13"

/-- The content of the rendered `parseError.Error()` string: the name of
the recorded rule, the translated begin/end positions, and the quoted
excerpt `buffer[begin:end]`. -/
structure Diag where
  rule : String
  beginPos : textPosition
  endPos : textPosition
  excerpt : List Nat
deriving DecidableEq, Repr

/-- Build the diagnostic from the buffer and the `max` slot, as
`parseError.Error()` does. -/
def errorDiag (buffer : List Nat) (mx : Token) : Diag :=
  { rule := rul3s mx.rule,
    beginPos := translatePosition buffer mx.begin,
    endPos := translatePosition buffer mx.endPos,
    excerpt := substr buffer mx.begin mx.endPos }

/-- Parse and, on failure, render the diagnostic of the final `max` slot
(`none` on success: no error is produced then). -/
def parseDiag (input : String) : Option Diag :=
  let r := runScript input
  if r.1 then none else some (errorDiag (buf input) r.2.max)

/-! ### Run wrappers for single rules and the spec's line scanner -/

/-- Run the `Value` rule alone on an input, as the grammar would on a
param value. -/
def runValue (input : String) : Bool × S :=
  value (parseFuel input) (buf input) initS

/-- The callbacks produced by matching an input as a `Value` and executing
the recorded tokens. -/
def valueCallbacks (input : String) : Option (List Callback) :=
  let r := runValue input
  if r.1 then some (Execute (buf input) (tokensList r.2) []) else none

/-- Run the `Comment` rule alone on an input. -/
def runComment (input : String) : Bool × S :=
  comment (parseFuel input) (buf input) initS

/-- Modelled from the spec: the spec's §4.6 position scan increments the
line count on line-terminator characters, which §6 and the `EndOfLine`
rule define as `'\n'`, `'\r\n'` or `'\r'`; this scan therefore increments
on both `'\n'` (10) and `'\r'` (13).  It exists only to compare the spec's
reading with `positionScan`, which the Go code restricts to `'\n'`. -/
def specPositionScan : List Nat → Nat → Nat → Nat → List (Nat × textPosition)
  | [], _, _, _ => []
  | c :: rest, i, line, symbol =>
    if c = 10 ∨ c = 13 then
      (i, ⟨line + 1, 0⟩) :: specPositionScan rest (i + 1) (line + 1) 0
    else (i, ⟨line, symbol + 1⟩) :: specPositionScan rest (i + 1) line (symbol + 1)

/-- Modelled from the spec: lookup into `specPositionScan`, the
spec-faithful counterpart of `translatePosition`. -/
def specTranslatePosition (buffer : List Nat) (p : Nat) : textPosition :=
  match (specPositionScan buffer 0 1 0).find? (fun e => e.1 = p) with
  | some e => e.2
  | none => ⟨0, 0⟩

/-- Invariant of reachable parser states: the write index never exceeds
the written-store length, and every visible record (index below
`tokenIndex`) ends at or before the current position. -/
def Inv (s : S) : Prop :=
  s.tokenIndex ≤ s.tree.length ∧
  ∀ i, i < s.tokenIndex → (s.tree.getD i Token.zero).endPos ≤ s.position

/-- State extension: the store never shrinks, the write index never
drops below its entry value, and the records below the entry write index
are untouched (backtracking only rewinds `position`/`tokenIndex`). -/
def Ext (s s1 : S) : Prop :=
  s.tree.length ≤ s1.tree.length ∧
  s.tokenIndex ≤ s1.tokenIndex ∧
  ∀ i, i < s.tokenIndex → s1.tree.getD i Token.zero = s.tree.getD i Token.zero

/-- A matcher that preserves the reachable-state invariant and only
extends the state. -/
def Good (p : M) : Prop :=
  ∀ s, Inv s → Inv (p s).2 ∧ Ext s (p s).2

/-! ### Helper lemmas on the combinators -/

/-- An entry-save wrapper restores `(position, tokenIndex)` whenever it
returns failure. -/
theorem withRestore_restores (p : M) (s : S) (h : (withRestore p s).1 = false) :
    (withRestore p s).2.position = s.position ∧
      (withRestore p s).2.tokenIndex = s.tokenIndex := by
  unfold withRestore at h ⊢
  rcases hp : p s with ⟨ok, s1⟩
  rw [hp] at h
  cases ok
  · simp only [hp]
    exact ⟨rfl, rfl⟩
  · simp at h

/-- `capture` succeeds exactly when its body does. -/
theorem capture_fst (r : Rule) (p : M) (s : S) : (capture r p s).1 = (p s).1 := by
  unfold capture
  rcases hp : p s with ⟨ok, s1⟩
  cases ok <;> rfl

/-- A starred matcher always succeeds. -/
theorem pstar_fst (p : M) : ∀ (fuel : Nat) (s : S), (pstar p fuel s).1 = true := by
  intro fuel
  induction fuel with
  | zero => intro s; rfl
  | succ n ih =>
    intro s
    unfold pstar
    rcases hp : p s with ⟨ok, s1⟩
    cases ok <;> simp [ih]

/-! ### Invariant lemmas: every matcher preserves the reachable-state
invariant `Inv` and only extends the state (`Ext`); the store facts about
`treeWrite`/`add`; the tree-builder lemmas; and the shape of the token
list of every successful top-level parse.  These support the universal
single-root property of the tree builder. -/

theorem ext_refl (s : S) : Ext s s := ⟨le_refl _, le_refl _, fun _ _ => rfl⟩

theorem ext_trans {s s1 s2 : S} (h1 : Ext s s1) (h2 : Ext s1 s2) : Ext s s2 :=
  ⟨h1.1.trans h2.1, h1.2.1.trans h2.2.1,
    fun i hi => (h2.2.2 i (lt_of_lt_of_le hi h1.2.1)).trans (h1.2.2 i hi)⟩

theorem add_position (r : Rule) (bg : Nat) (s : S) : (add r bg s).position = s.position := by
  unfold add; split <;> rfl

theorem add_tokenIndex (r : Rule) (bg : Nat) (s : S) :
    (add r bg s).tokenIndex = s.tokenIndex + 1 := by
  unfold add; split <;> rfl

theorem add_tree (r : Rule) (bg : Nat) (s : S) :
    (add r bg s).tree = treeWrite s.tree s.tokenIndex ⟨r, bg, s.position⟩ := by
  unfold add; split <;> rfl

theorem treeWrite_length (l : List Token) (i : Nat) (t : Token) :
    (treeWrite l i t).length = if i < l.length then l.length else i + 1 := by
  unfold treeWrite
  split
  · simp [*]
  · simp; omega

theorem treeWrite_getD_lt (l : List Token) (i : Nat) (t : Token) (j : Nat) (hj : j < i) :
    (treeWrite l i t).getD j Token.zero = l.getD j Token.zero := by
  unfold treeWrite
  split
  · rw [List.getD_eq_getElem?_getD, List.getD_eq_getElem?_getD,
      List.getElem?_set_ne (by omega)]
  · rw [List.getD_eq_getElem?_getD, List.getD_eq_getElem?_getD, List.append_assoc,
      List.getElem?_append]
    by_cases hl : j < l.length
    · rw [if_pos hl]
    · rw [if_neg hl]
      rw [List.getElem?_eq_none (by omega : l.length ≤ j)]
      rw [List.getElem?_append]
      rw [if_pos (by simp; omega)]
      simp [List.getElem?_replicate, (by omega : j - l.length < i - l.length)]

theorem treeWrite_getD_self (l : List Token) (i : Nat) (t : Token) (h : i ≤ l.length) :
    (treeWrite l i t).getD i Token.zero = t := by
  unfold treeWrite
  split
  · rw [List.getD_eq_getElem?_getD, List.getElem?_set_self (by omega)]
    rfl
  · have : i = l.length := by omega
    subst this
    simp

theorem add_good (r : Rule) (bg : Nat) (s : S) (h : Inv s) :
    Inv (add r bg s) ∧ Ext s (add r bg s) := by
  obtain ⟨h1, h2⟩ := h
  have hlen : s.tree.length ≤ (add r bg s).tree.length := by
    rw [add_tree, treeWrite_length]; split <;> omega
  refine ⟨⟨?_, ?_⟩, hlen, ?_, ?_⟩
  · rw [add_tokenIndex, add_tree, treeWrite_length]; split <;> omega
  · intro i hi
    rw [add_tokenIndex] at hi
    rw [add_tree, add_position]
    rcases Nat.lt_or_ge i s.tokenIndex with hc | hc
    · rw [treeWrite_getD_lt _ _ _ _ hc]; exact h2 i hc
    · have : i = s.tokenIndex := by omega
      subst this
      rw [treeWrite_getD_self _ _ _ h1]
  · rw [add_tokenIndex]; omega
  · intro i hi
    rw [add_tree, treeWrite_getD_lt _ _ _ _ hi]

theorem inv_restore (s s1 : S) (h : Inv s) (hx : Ext s s1) :
    Inv (restoreS s1 s.position s.tokenIndex) ∧
      Ext s (restoreS s1 s.position s.tokenIndex) := by
  obtain ⟨h1, h2⟩ := h
  refine ⟨⟨le_trans h1 hx.1, ?_⟩, hx.1, le_refl _, fun i hi => hx.2.2 i hi⟩
  intro i hi
  show (s1.tree.getD i Token.zero).endPos ≤ s.position
  rw [hx.2.2 i hi]
  exact h2 i hi

theorem good_matchChar (c : Nat) (b : List Nat) : Good (matchChar c b) := by
  intro s h
  unfold matchChar
  split
  · exact ⟨⟨h.1, fun i hi => (h.2 i hi).trans (Nat.le_succ _)⟩, ext_refl _⟩
  · exact ⟨h, ext_refl _⟩

theorem good_matchRange (lo hi : Nat) (b : List Nat) : Good (matchRange lo hi b) := by
  intro s h
  unfold matchRange
  split
  · exact ⟨⟨h.1, fun i hi => (h.2 i hi).trans (Nat.le_succ _)⟩, ext_refl _⟩
  · exact ⟨h, ext_refl _⟩

theorem good_matchDot (b : List Nat) : Good (matchDot b) := by
  intro s h
  unfold matchDot
  split
  · exact ⟨⟨h.1, fun i hi => (h.2 i hi).trans (Nat.le_succ _)⟩, ext_refl _⟩
  · exact ⟨h, ext_refl _⟩

theorem good_emit (r : Rule) : Good (emit r) := by
  intro s h
  exact add_good r s.position s h

theorem good_pseq {p q : M} (hp : Good p) (hq : Good q) : Good (pseq p q) := by
  intro s h
  unfold pseq
  rcases hps : p s with ⟨ok, s1⟩
  have h1 := hp s h
  rw [hps] at h1
  cases ok
  · exact h1
  · have h2 := hq s1 h1.1
    exact ⟨h2.1, ext_trans h1.2 h2.2⟩

theorem good_pchoice {p q : M} (hp : Good p) (hq : Good q) : Good (pchoice p q) := by
  intro s h
  unfold pchoice
  rcases hps : p s with ⟨ok, s1⟩
  have h1 := hp s h
  rw [hps] at h1
  cases ok
  · have hr := inv_restore s s1 h h1.2
    have h2 := hq _ hr.1
    exact ⟨h2.1, ext_trans hr.2 h2.2⟩
  · exact h1

theorem good_popt {p : M} (hp : Good p) : Good (popt p) := by
  intro s h
  unfold popt
  rcases hps : p s with ⟨ok, s1⟩
  have h1 := hp s h
  rw [hps] at h1
  cases ok
  · exact inv_restore s s1 h h1.2
  · exact h1

theorem good_pnot {p : M} (hp : Good p) : Good (pnot p) := by
  intro s h
  unfold pnot
  rcases hps : p s with ⟨ok, s1⟩
  have h1 := hp s h
  rw [hps] at h1
  cases ok
  · exact inv_restore s s1 h h1.2
  · exact h1

theorem good_pstar {p : M} (hp : Good p) : ∀ fuel : Nat, Good (pstar p fuel) := by
  intro fuel
  induction fuel with
  | zero => intro s h; exact ⟨h, ext_refl _⟩
  | succ n ih =>
    intro s h
    unfold pstar
    rcases hps : p s with ⟨ok, s1⟩
    have h1 := hp s h
    rw [hps] at h1
    cases ok
    · exact inv_restore s s1 h h1.2
    · have h2 := ih s1 h1.1
      exact ⟨h2.1, ext_trans h1.2 h2.2⟩

theorem good_capture {p : M} (r : Rule) (hp : Good p) : Good (capture r p) := by
  intro s h
  unfold capture
  rcases hps : p s with ⟨ok, s1⟩
  have h1 := hp s h
  rw [hps] at h1
  cases ok
  · exact h1
  · have h2 := add_good r s.position s1 h1.1
    exact ⟨h2.1, ext_trans h1.2 h2.2⟩

theorem good_withRestore {p : M} (hp : Good p) : Good (withRestore p) := by
  intro s h
  unfold withRestore
  rcases hps : p s with ⟨ok, s1⟩
  have h1 := hp s h
  rw [hps] at h1
  cases ok
  · exact inv_restore s s1 h h1.2
  · exact h1

theorem good_withRule {p : M} (r : Rule) (hp : Good p) : Good (withRule r p) := by
  intro s h
  exact good_withRestore (good_capture r hp) s h

theorem good_lit (cs : List Nat) (b : List Nat) : Good (lit cs b) := by
  induction cs with
  | nil => intro s h; exact ⟨h, ext_refl _⟩
  | cons c rest ih =>
    intro s h
    unfold lit
    rcases hps : matchChar c b s with ⟨ok, s1⟩
    have h1 := good_matchChar c b s h
    rw [hps] at h1
    cases ok
    · exact h1
    · have h2 := ih s1 h1.1
      exact ⟨h2.1, ext_trans h1.2 h2.2⟩

theorem good_whitespace (b : List Nat) : Good (whitespace b) := fun s h =>
  good_withRule _ (good_pchoice (good_matchChar _ b) (good_matchChar _ b)) s h

theorem good_endOfLine (b : List Nat) : Good (endOfLine b) := fun s h =>
  good_withRule _ (good_pchoice (good_pseq (good_matchChar _ b) (good_matchChar _ b))
    (good_pchoice (good_matchChar _ b) (good_matchChar _ b))) s h

theorem good_space (b : List Nat) : Good (space b) := fun s h =>
  good_capture _ (good_pchoice (good_whitespace b) (good_endOfLine b)) s h

theorem good_spacing (fuel : Nat) (b : List Nat) : Good (spacing fuel b) := fun s h =>
  good_capture _ (good_pstar (good_space b) fuel) s h

theorem good_whiteSpacing (fuel : Nat) (b : List Nat) : Good (whiteSpacing fuel b) :=
  fun s h => good_capture _ (good_pstar (good_whitespace b) fuel) s h

theorem good_mustWhiteSpacing (fuel : Nat) (b : List Nat) :
    Good (mustWhiteSpacing fuel b) := fun s h =>
  good_withRule _ (good_pseq (good_whitespace b) (good_pstar (good_whitespace b) fuel)) s h

theorem good_equal (fuel : Nat) (b : List Nat) : Good (equal fuel b) := fun s h =>
  good_withRule _ (good_pseq (good_spacing fuel b)
    (good_pseq (good_matchChar _ b) (good_spacing fuel b))) s h

theorem good_identChar (b : List Nat) : Good (identChar b) := by
  intro s h
  unfold identChar
  dsimp only
  split
  · exact good_matchChar _ b s h
  · split
    · exact good_matchChar _ b s h
    · split
      · exact good_matchChar _ b s h
      · split
        · exact good_matchRange _ _ b s h
        · exact good_matchRange _ _ b s h

theorem good_identifier (fuel : Nat) (b : List Nat) : Good (identifier fuel b) :=
  fun s h =>
  good_withRule _ (good_pseq (good_identChar b) (good_pstar (good_identChar b) fuel)) s h

theorem good_stringChar (b : List Nat) : Good (stringChar b) := by
  intro s h
  unfold stringChar
  dsimp only
  split
  · exact good_matchChar _ b s h
  all_goals split
  · exact good_matchChar _ b s h
  all_goals split
  · exact good_matchChar _ b s h
  all_goals split
  · exact good_matchChar _ b s h
  all_goals split
  · exact good_matchChar _ b s h
  all_goals split
  · exact good_matchRange _ _ b s h
  all_goals split
  · exact good_matchRange _ _ b s h
  · exact good_matchRange _ _ b s h

theorem good_digit (b : List Nat) : Good (digit b) := fun s h =>
  good_matchRange _ _ b s h

theorem good_digits (fuel : Nat) (b : List Nat) : Good (digits fuel b) := fun s h =>
  good_pseq (good_digit b) (good_pstar (good_digit b) fuel) s h

theorem good_actionSwitch (b : List Nat) : Good (actionSwitch b) := by
  intro s h
  unfold actionSwitch
  dsimp only
  split
  · exact good_lit _ b s h
  all_goals split
  · exact good_lit _ b s h
  all_goals split
  · exact good_lit _ b s h
  all_goals split
  · exact good_lit _ b s h
  · exact good_lit _ b s h

theorem good_actionBody (b : List Nat) : Good (actionBody b) := fun s h =>
  good_pchoice (good_lit _ b)
    (good_pchoice (good_lit _ b) (good_pchoice (good_lit _ b) (good_actionSwitch b))) s h

theorem good_entitySwitch (b : List Nat) : Good (entitySwitch b) := by
  intro s h
  unfold entitySwitch
  dsimp only
  split
  · exact good_lit _ b s h
  all_goals split
  · exact good_lit _ b s h
  all_goals split
  · exact good_lit _ b s h
  all_goals split
  · exact good_lit _ b s h
  all_goals split
  · exact good_lit _ b s h
  all_goals split
  · exact good_lit _ b s h
  all_goals split
  · exact good_lit _ b s h
  all_goals split
  · exact good_lit _ b s h
  all_goals split
  · exact good_lit _ b s h
  all_goals split
  · exact good_lit _ b s h
  · exact good_lit _ b s h

theorem good_entityBody (b : List Nat) : Good (entityBody b) := fun s h =>
  good_pchoice (good_lit _ b) (good_pchoice (good_lit _ b) (good_pchoice (good_lit _ b)
    (good_pchoice (good_lit _ b) (good_pchoice (good_lit _ b) (good_pchoice (good_lit _ b)
      (good_pchoice (good_lit _ b) (good_pchoice (good_lit _ b)
        (good_entitySwitch b)))))))) s h

theorem good_cidrBody (fuel : Nat) (b : List Nat) : Good (cidrBody fuel b) := fun s h =>
  good_pseq (good_digits fuel b) (good_pseq (good_matchDot b) (good_pseq
    (good_digits fuel b) (good_pseq (good_matchDot b) (good_pseq (good_digits fuel b)
      (good_pseq (good_matchDot b) (good_pseq (good_digits fuel b)
        (good_pseq (good_matchChar _ b) (good_digits fuel b)))))))) s h

theorem good_ipBody (fuel : Nat) (b : List Nat) : Good (ipBody fuel b) := fun s h =>
  good_pseq (good_digits fuel b) (good_pseq (good_matchDot b) (good_pseq
    (good_digits fuel b) (good_pseq (good_matchDot b) (good_pseq (good_digits fuel b)
      (good_pseq (good_matchDot b) (good_digits fuel b)))))) s h

theorem good_rangeBody (fuel : Nat) (b : List Nat) : Good (rangeBody fuel b) := fun s h =>
  good_pseq (good_digits fuel b) (good_pseq (good_matchChar _ b) (good_digits fuel b)) s h

theorem good_valueSwitch (fuel : Nat) (b : List Nat) : Good (valueSwitch fuel b) := by
  intro s h
  unfold valueSwitch
  dsimp only
  split
  · exact good_pseq (good_capture _ (good_pseq (good_matchChar _ b)
      (good_capture _ (good_identifier fuel b)))) (good_emit _) s h
  all_goals split
  · exact good_pseq (good_capture _ (good_pseq (good_matchChar _ b)
      (good_capture _ (good_identifier fuel b)))) (good_emit _) s h
  all_goals split
  · exact good_pseq (good_capture _ (good_pseq (good_matchChar _ b)
      (good_pseq (good_whiteSpacing fuel b) (good_pseq (good_capture _
        (good_identifier fuel b)) (good_pseq (good_whiteSpacing fuel b)
          (good_matchChar _ b)))))) (good_emit _) s h
  · exact good_pseq (good_capture _ (good_capture _ (good_pseq (good_stringChar b)
      (good_pstar (good_stringChar b) fuel)))) (good_emit _) s h

theorem good_value (fuel : Nat) (b : List Nat) : Good (value fuel b) := fun s h =>
  good_capture _ (good_pchoice
    (good_pseq (good_capture _ (good_capture _ (good_cidrBody fuel b))) (good_emit _))
    (good_pchoice
      (good_pseq (good_capture _ (good_capture _ (good_ipBody fuel b))) (good_emit _))
      (good_pchoice
        (good_pseq (good_capture _ (good_capture _ (good_rangeBody fuel b))) (good_emit _))
        (good_pchoice
          (good_pseq (good_capture _ (good_capture _ (good_digits fuel b))) (good_emit _))
          (good_valueSwitch fuel b))))) s h

theorem good_param (fuel : Nat) (b : List Nat) : Good (param fuel b) := fun s h =>
  good_capture _ (good_pseq (good_capture _ (good_identifier fuel b))
    (good_pseq (good_emit _) (good_pseq (good_equal fuel b)
      (good_pseq (good_value fuel b) (good_whiteSpacing fuel b))))) s h

theorem good_params (fuel : Nat) (b : List Nat) : Good (params fuel b) := fun s h =>
  good_capture _ (good_pseq (good_param fuel b) (good_pstar (good_param fuel b) fuel)) s h

theorem good_expr (fuel : Nat) (b : List Nat) : Good (expr fuel b) := fun s h =>
  good_withRule _ (good_pseq (good_capture _ (good_capture _ (good_actionBody b)))
    (good_pseq (good_emit _) (good_pseq (good_mustWhiteSpacing fuel b)
      (good_pseq (good_capture _ (good_capture _ (good_entityBody b)))
        (good_pseq (good_emit _) (good_pseq (good_popt (good_pseq
          (good_mustWhiteSpacing fuel b) (good_params fuel b)))
            (good_emit _))))))) s h

theorem good_declaration (fuel : Nat) (b : List Nat) : Good (declaration fuel b) :=
  fun s h =>
  good_capture _ (good_pseq (good_capture _ (good_identifier fuel b))
    (good_pseq (good_emit _) (good_pseq (good_equal fuel b) (good_expr fuel b)))) s h

theorem good_commentTail (fuel : Nat) (b : List Nat) : Good (commentTail fuel b) :=
  fun s h =>
  good_pstar (good_pseq (good_pnot (good_endOfLine b)) (good_matchDot b)) fuel s h

theorem good_comment (fuel : Nat) (b : List Nat) : Good (comment fuel b) := fun s h =>
  good_capture _ (good_pchoice (good_pseq (good_matchChar _ b) (good_commentTail fuel b))
    (good_pseq (good_matchChar _ b) (good_pseq (good_matchChar _ b)
      (good_pseq (good_commentTail fuel b) (good_emit _))))) s h

theorem good_statement (fuel : Nat) (b : List Nat) : Good (statement fuel b) := fun s h =>
  good_capture _ (good_pseq (good_spacing fuel b)
    (good_pseq (good_pchoice (good_expr fuel b) (good_pchoice (good_declaration fuel b)
      (good_comment fuel b)))
      (good_pseq (good_spacing fuel b) (good_pstar (good_endOfLine b) fuel)))) s h

theorem good_endOfFile (b : List Nat) : Good (endOfFile b) := fun s h =>
  good_capture _ (good_pnot (good_matchDot b)) s h

theorem tokensList_add (r : Rule) (bg : Nat) (s : S) (h : s.tokenIndex ≤ s.tree.length) :
    tokensList (add r bg s) = tokensList s ++ [⟨r, bg, s.position⟩] := by
  unfold tokensList
  rw [add_tokenIndex, List.range_succ, List.map_append]
  congr 1
  · apply List.map_congr_left
    intro i hi
    rw [List.mem_range] at hi
    rw [add_tree, treeWrite_getD_lt _ _ _ _ hi]
  · simp only [List.map_cons, List.map_nil]
    rw [add_tree, treeWrite_getD_self _ _ _ h]

theorem tokensList_mem_endPos_le (s : S) (h : Inv s) :
    ∀ u ∈ tokensList s, u.endPos ≤ s.position := by
  intro u hu
  unfold tokensList at hu
  rw [List.mem_map] at hu
  obtain ⟨i, hi, rfl⟩ := hu
  rw [List.mem_range] at hi
  exact h.2 i hi

theorem astLoop_cons (t : Token) (rest : List Token) (st : List Node) :
    astLoop (t :: rest) st =
      if t.begin = t.endPos then astLoop rest st
      else astLoop rest
        (Node.mk t (popChildren t st []).1 :: (popChildren t st []).2) := rfl

theorem astLoop_append (xs ys : List Token) :
    ∀ st, astLoop (xs ++ ys) st = astLoop ys (astLoop xs st) := by
  induction xs with
  | nil => intro st; rfl
  | cons x rest ih =>
    intro st
    rw [List.cons_append, astLoop_cons, astLoop_cons]
    split
    · exact ih st
    · exact ih _

theorem popChildren_rest_mem (t : Token) :
    ∀ (st acc : List Node) (n : Node), n ∈ (popChildren t st acc).2 → n ∈ st := by
  intro st
  induction st with
  | nil => intro acc n hn; simp [popChildren] at hn
  | cons m rest ih =>
    intro acc n hn
    unfold popChildren at hn
    split at hn
    · exact List.mem_cons_of_mem m (ih _ n hn)
    · simpa using hn

theorem astLoop_endPos_bound (B : Nat) :
    ∀ (ts : List Token) (st : List Node),
      (∀ u ∈ ts, u.endPos ≤ B) → (∀ n ∈ st, n.tok.endPos ≤ B) →
      ∀ n ∈ astLoop ts st, n.tok.endPos ≤ B := by
  intro ts
  induction ts with
  | nil => intro st _ hst n hn; exact hst n hn
  | cons t rest ih =>
    intro st hts hst n hn
    unfold astLoop at hn
    split at hn
    · exact ih st (fun u hu => hts u (List.mem_cons_of_mem t hu)) hst n hn
    · refine ih _ (fun u hu => hts u (List.mem_cons_of_mem t hu)) ?_ n hn
      intro m hm
      rcases List.mem_cons.mp hm with rfl | hm2
      · exact hts t (List.mem_cons_self t rest)
      · exact hst m (popChildren_rest_mem t st [] m hm2)

theorem popChildren_pop_all (t : Token) :
    ∀ (st acc : List Node),
      (∀ n ∈ st, t.begin ≤ n.tok.begin ∧ n.tok.endPos ≤ t.endPos) →
      popChildren t st acc = (st.reverse ++ acc, []) := by
  intro st
  induction st with
  | nil => intro acc _; rfl
  | cons m rest ih =>
    intro acc h
    unfold popChildren
    rw [if_pos (h m (List.mem_cons_self m rest))]
    rw [ih (m :: acc) (fun n hn => h n (List.mem_cons_of_mem m hn))]
    simp

theorem one_subtree_of_last_containing (pre : List Token) (t : Token)
    (hbg : t.begin = 0) (hw : t.begin ≠ t.endPos)
    (hB : ∀ u ∈ pre, u.endPos ≤ t.endPos) :
    astLoop (pre ++ [t]) [] = [Node.mk t (astLoop pre []).reverse] ∧
    (astLoop (pre ++ [t]) []).length = 1 ∧
    (AST (pre ++ [t])).map Node.tok = some t := by
  have hbound := astLoop_endPos_bound t.endPos pre [] hB (by intro n hn; simp at hn)
  have hmain : astLoop (pre ++ [t]) [] = [Node.mk t (astLoop pre []).reverse] := by
    rw [astLoop_append, astLoop_cons, if_neg hw]
    rw [popChildren_pop_all t _ []
      (fun n hn => ⟨hbg ▸ Nat.zero_le _, hbound n hn⟩)]
    show [Node.mk t ((astLoop pre []).reverse ++ [])] = _
    rw [List.append_nil]
  refine ⟨hmain, by rw [hmain]; rfl, ?_⟩
  unfold AST
  rw [hmain]
  rfl

theorem pseq_true_elim (p q : M) (s : S) (h : (pseq p q s).1 = true) :
    (p s).1 = true ∧ pseq p q s = q (p s).2 := by
  unfold pseq at h ⊢
  generalize hps : p s = r at h ⊢
  rcases r with ⟨ok, s1⟩
  cases ok
  · simp at h
  · exact ⟨rfl, rfl⟩

theorem withRule_true_elim (r : Rule) (p : M) (s : S) (h : (withRule r p s).1 = true) :
    (p s).1 = true ∧ (withRule r p s).2 = add r s.position (p s).2 := by
  unfold withRule withRestore capture at h ⊢
  generalize hps : p s = pr at h ⊢
  rcases pr with ⟨ok, s1⟩
  cases ok
  · simp at h
  · exact ⟨rfl, rfl⟩

theorem endOfFile_snd_elim (b : List Nat) (s : S) (h : (endOfFile b s).1 = true) :
    bufAt b s.position = endSymbol ∧
    (endOfFile b s).2 = add Rule.EndOfFile s.position s := by
  unfold endOfFile capture pnot matchDot at h ⊢
  by_cases hb : bufAt b s.position = endSymbol
  · rw [if_neg (by simpa using hb)] at h ⊢
    exact ⟨hb, rfl⟩
  · rw [if_pos (by simpa using hb)] at h
    simp at h

theorem char_toNat_lt (c : Char) : c.toNat < 1114112 := by
  have h := c.valid
  rcases h with h1 | ⟨h2, h3⟩
  · exact lt_trans h1 (by norm_num)
  · exact h3

theorem str_mem_lt (input : String) : ∀ x ∈ str input, x < 1114112 := by
  intro x hx
  unfold str at hx
  rw [List.mem_map] at hx
  obtain ⟨c, _, rfl⟩ := hx
  exact char_toNat_lt c

theorem buf_eq_append (input : String) : buf input = str input ++ [endSymbol] := by
  unfold buf mkBuffer
  rw [if_pos]
  by_cases hnil : str input = []
  · exact Or.inl hnil
  · refine Or.inr ?_
    rw [List.getLast?_eq_getLast _ hnil]
    intro hcontra
    have hmem := List.getLast_mem hnil
    have := str_mem_lt input _ hmem
    rw [Option.some_inj.mp hcontra] at this
    exact absurd this (by unfold endSymbol; omega)

theorem bufAt_endSymbol_ge (input : String) (p : Nat)
    (h : bufAt (buf input) p = endSymbol) : (str input).length ≤ p := by
  by_contra hlt
  push_neg at hlt
  rw [buf_eq_append] at h
  unfold bufAt at h
  rw [List.getD_eq_getElem?_getD, List.getElem?_append, if_pos hlt,
    List.getElem?_eq_getElem hlt] at h
  have hm := str_mem_lt input _ (List.getElem_mem hlt)
  rw [show ((some (str input)[p]).getD endSymbol) = (str input)[p] from rfl] at h
  rw [h] at hm
  exact absurd hm (by unfold endSymbol; omega)

theorem str_length_pos (input : String) (h : input ≠ "") : 0 < (str input).length := by
  unfold str
  rw [List.length_map]
  cases input with
  | mk data =>
    cases data with
    | nil => exact absurd rfl h
    | cons c cs => simp

theorem inv_initS : Inv initS :=
  ⟨Nat.zero_le _, fun i hi => absurd hi (Nat.not_lt_zero i)⟩

theorem initS_position : initS.position = 0 := rfl

theorem runScript_success_shape (input : String) (h : (runScript input).1 = true) :
    ∃ pre : List Token,
      tokensList (runScript input).2 =
        pre ++ [⟨Rule.Script, 0, (runScript input).2.position⟩] ∧
      (∀ u ∈ pre, u.endPos ≤ (runScript input).2.position) ∧
      0 < (runScript input).2.position := by
  by_cases hinput : input = ""
  · subst hinput
    exact absurd h (by decide)
  have hrs : runScript input =
      withRule Rule.Script
        (pseq (spacing (parseFuel input) (buf input))
          (pseq (statement (parseFuel input) (buf input))
            (pseq (pstar (statement (parseFuel input) (buf input)) (parseFuel input))
              (endOfFile (buf input))))) initS := rfl
  set F := parseFuel input with hF
  set b := buf input with hB0
  set body := pseq (spacing F b)
    (pseq (statement F b) (pseq (pstar (statement F b) F) (endOfFile b))) with hbody
  rw [hrs] at h ⊢
  obtain ⟨hb1, hb2⟩ := withRule_true_elim Rule.Script body initS h
  -- the body preserves the invariant
  have hgood := (good_pseq (good_spacing F b) (good_pseq (good_statement F b)
    (good_pseq (good_pstar (good_statement F b) F) (good_endOfFile b)))) initS inv_initS
  have hinv : Inv (body initS).2 := by rw [hbody]; exact hgood.1
  -- the body ends with a successful EndOfFile, so the final position carries
  -- the sentinel and lies at or beyond the input length
  have hpos : (str input).length ≤ (body initS).2.position := by
    obtain ⟨hA, hAeq⟩ := pseq_true_elim (spacing F b)
      (pseq (statement F b) (pseq (pstar (statement F b) F) (endOfFile b))) initS
      (by rw [← hbody]; exact hb1)
    have hR1 : (pseq (statement F b) (pseq (pstar (statement F b) F) (endOfFile b))
        ((spacing F b initS).2)).1 = true := by
      rw [← hAeq, ← hbody]; exact hb1
    obtain ⟨hB, hBeq⟩ := pseq_true_elim _ _ _ hR1
    have hR2 : (pseq (pstar (statement F b) F) (endOfFile b)
        ((statement F b ((spacing F b initS).2)).2)).1 = true := by
      rw [← hBeq]; exact hR1
    obtain ⟨hC, hCeq⟩ := pseq_true_elim _ _ _ hR2
    have hEof : (endOfFile b ((pstar (statement F b) F
        ((statement F b ((spacing F b initS).2)).2)).2)).1 = true := by
      rw [← hCeq]; exact hR2
    obtain ⟨hsent, hEofEq⟩ := endOfFile_snd_elim _ _ hEof
    have hs1eq : (body initS).2 = add Rule.EndOfFile ((pstar (statement F b) F
        ((statement F b ((spacing F b initS).2)).2)).2).position
        ((pstar (statement F b) F ((statement F b ((spacing F b initS).2)).2)).2) := by
      rw [hbody, hAeq, hBeq, hCeq, hEofEq]
    rw [hs1eq, add_position]
    exact bufAt_endSymbol_ge input _ hsent
  refine ⟨tokensList (body initS).2, ?_, ?_, ?_⟩
  · rw [hb2, add_position, tokensList_add _ _ _ hinv.1, initS_position]
  · intro u hu
    rw [hb2, add_position]
    exact tokensList_mem_endPos_le _ hinv u hu
  · rw [hb2, add_position]
    exact lt_of_lt_of_le (str_length_pos input hinput) hpos

/-! ### Claim theorems -/

/-- C2: every rule-matching function, on failure, restores the pair
`(position, tokenIndex)` to its entry values (the always-succeeding
`Spacing`/`WhiteSpacing` never fail at all), and the ordered-choice and
repetition combinators run the next alternative / exit the loop from the
state in which the saved pair has been restored verbatim, so a failed
attempt changes neither the offset nor the visible token-record prefix. -/
theorem rule_failure_restores_state :
    (∀ (fuel : Nat) (b : List Nat) (s : S), (script fuel b s).1 = false →
        (script fuel b s).2.position = s.position ∧
        (script fuel b s).2.tokenIndex = s.tokenIndex)
  ∧ (∀ (fuel : Nat) (b : List Nat) (s : S), (expr fuel b s).1 = false →
        (expr fuel b s).2.position = s.position ∧
        (expr fuel b s).2.tokenIndex = s.tokenIndex)
  ∧ (∀ (fuel : Nat) (b : List Nat) (s : S), (identifier fuel b s).1 = false →
        (identifier fuel b s).2.position = s.position ∧
        (identifier fuel b s).2.tokenIndex = s.tokenIndex)
  ∧ (∀ (fuel : Nat) (b : List Nat) (s : S), (equal fuel b s).1 = false →
        (equal fuel b s).2.position = s.position ∧
        (equal fuel b s).2.tokenIndex = s.tokenIndex)
  ∧ (∀ (fuel : Nat) (b : List Nat) (s : S), (mustWhiteSpacing fuel b s).1 = false →
        (mustWhiteSpacing fuel b s).2.position = s.position ∧
        (mustWhiteSpacing fuel b s).2.tokenIndex = s.tokenIndex)
  ∧ (∀ (b : List Nat) (s : S), (whitespace b s).1 = false →
        (whitespace b s).2.position = s.position ∧
        (whitespace b s).2.tokenIndex = s.tokenIndex)
  ∧ (∀ (b : List Nat) (s : S), (endOfLine b s).1 = false →
        (endOfLine b s).2.position = s.position ∧
        (endOfLine b s).2.tokenIndex = s.tokenIndex)
  ∧ (∀ (fuel : Nat) (b : List Nat) (s : S),
        (spacing fuel b s).1 = true ∧ (whiteSpacing fuel b s).1 = true)
  ∧ (∀ (p q : M) (s : S), (p s).1 = false →
        pchoice p q s = q (restoreS (p s).2 s.position s.tokenIndex))
  ∧ (∀ (p : M) (fuel : Nat) (s : S), (p s).1 = false →
        pstar p (fuel + 1) s = (true, restoreS (p s).2 s.position s.tokenIndex)) := by
  refine ⟨?_, ?_, ?_, ?_, ?_, ?_, ?_, ?_, ?_, ?_⟩
  · intro fuel b s h; exact withRestore_restores _ s h
  · intro fuel b s h; exact withRestore_restores _ s h
  · intro fuel b s h; exact withRestore_restores _ s h
  · intro fuel b s h; exact withRestore_restores _ s h
  · intro fuel b s h; exact withRestore_restores _ s h
  · intro b s h; exact withRestore_restores _ s h
  · intro b s h; exact withRestore_restores _ s h
  · intro fuel b s
    constructor
    · show (capture Rule.Spacing (pstar (space b) fuel) s).1 = true
      rw [capture_fst]; exact pstar_fst _ _ _
    · show (capture Rule.WhiteSpacing (pstar (whitespace b) fuel) s).1 = true
      rw [capture_fst]; exact pstar_fst _ _ _
  · intro p q s h
    rcases hp : p s with ⟨ok, s1⟩
    rw [hp] at h
    cases ok
    · unfold pchoice
      rw [hp]
    · simp at h
  · intro p fuel s h
    rcases hp : p s with ⟨ok, s1⟩
    rw [hp] at h
    cases ok
    · unfold pstar
      rw [hp]
    · simp at h

/-- Witness for C2: the `Identifier` rule fails on the input `1` (a digit)
and leaves `position` and `tokenIndex` at their entry values. -/
theorem rule_failure_restores_state_witness :
    (identifier 3 (buf "1") initS).1 = false ∧
    (identifier 3 (buf "1") initS).2.position = initS.position ∧
    (identifier 3 (buf "1") initS).2.tokenIndex = initS.tokenIndex := by
  have hf : (identifier 3 (buf "1") initS).1 = false := by decide
  have h := rule_failure_restores_state.2.2.1 3 (buf "1") initS hf
  exact ⟨hf, h.1, h.2⟩

/-- Counterexample for C3: on the input `creatx` the literal attempt for
the keyword `create` consumes five runes (a non-empty attempt whose end
offset 5 exceeds the recorded `max.endPos = 0`) and then fails, yet after
the whole failed `Expr` rule the `max` slot is still the zero token: a
failing attempt never updates the Furthest slot.  Moreover the full parse
of `creatx` fails with `max` naming `Identifier` — a rule that succeeded
(the declaration head) — so the slot records deep successes, not
failures. -/
theorem max_not_updated_on_failed_attempt :
    (lit (str ("create")) (buf "creatx") initS).1 = false
  ∧ (lit (str ("create")) (buf "creatx") initS).2.position = 5
  ∧ (expr 8 (buf "creatx") initS).1 = false
  ∧ (expr 8 (buf "creatx") initS).2.max = Token.zero
  ∧ (runScript "creatx").1 = false
  ∧ (runScript "creatx").2.max.rule = Rule.Identifier := by
  refine ⟨by decide, by decide, by decide, by decide, ?_, ?_⟩ <;>
    simp [runScript, parseFuel, buf, script, withRule, withRestore, capture, pseq,
      pchoice, popt, pnot, pstar, emit, add, treeWrite, spacing, whiteSpacing,
      mustWhiteSpacing, equal, space, whitespace, endOfLine, statement, expr,
      declaration, comment, commentTail, params, param, value, valueSwitch, cidrBody,
      ipBody, rangeBody, digits, digit, identifier, identChar, stringChar, actionBody,
      actionSwitch, entityBody, entitySwitch, lit, str, matchChar, matchRange,
      matchDot, bufAt, restoreS, initS, mkBuffer, endOfFile, endSymbol, Token.zero]

/-- C3 amended: the `max` slot is updated exactly by `add` — that is, when
a token record is stored on a successful match — and only when that record
is non-empty (`begin ≠ position`) and ends strictly beyond `max.endPos`;
the character primitives and the backtracking restore never touch `max`,
so failed attempts as such perform no `max` update (any update surviving a
failure was made by a successful sub-match before the failure). -/
theorem max_updated_only_by_add :
    (∀ (s : S) (r : Rule) (bg : Nat),
        (add r bg s).max =
          if bg ≠ s.position ∧ s.max.endPos < s.position
          then (⟨r, bg, s.position⟩ : Token) else s.max)
  ∧ (∀ (b : List Nat) (s : S), ((matchDot b s).2).max = s.max)
  ∧ (∀ (c : Nat) (b : List Nat) (s : S), ((matchChar c b s).2).max = s.max)
  ∧ (∀ (lo hi : Nat) (b : List Nat) (s : S), ((matchRange lo hi b s).2).max = s.max)
  ∧ (∀ (s : S) (pos tok : Nat), (restoreS s pos tok).max = s.max) := by
  refine ⟨?_, ?_, ?_, ?_, ?_⟩
  · intro s r bg; unfold add; split <;> rfl
  · intro b s; unfold matchDot; split <;> rfl
  · intro c b s; unfold matchChar; split <;> rfl
  · intro lo hi b s; unfold matchRange; split <;> rfl
  · intro s pos tok; rfl

set_option maxHeartbeats 16000000 in
set_option maxRecDepth 16384 in
/-- C7: the tree builder skips zero-width records; a non-zero-width record
pops exactly the stack prefix whose spans are contained in its own span,
prepending each popped node so that the final child order is the push
(document) order; the record list of the successful parse of
`create vpc\n` leaves exactly one subtree whose root is the `Script`
record spanning the whole input; and universally, the record list of
every successful top-level parse finishes with exactly one subtree on the
stack, returned as the root: the `Script` record beginning at offset 0
and ending at the final position, which contains every other record. -/
theorem ast_reconstruction :
    (∀ (r : Rule) (bg : Nat) (rest : List Token) (stack : List Node),
        astLoop (⟨r, bg, bg⟩ :: rest) stack = astLoop rest stack)
  ∧ (∀ (t : Token) (n : Node) (rest acc : List Node),
        popChildren t (n :: rest) acc =
          if t.begin ≤ n.tok.begin ∧ n.tok.endPos ≤ t.endPos
          then popChildren t rest (n :: acc) else (acc, n :: rest))
  ∧ (∀ (t : Token) (rest : List Token) (stack : List Node),
        astLoop (t :: rest) stack =
          if t.begin = t.endPos then astLoop rest stack
          else astLoop rest
            (Node.mk t (popChildren t stack []).1 :: (popChildren t stack []).2))
  ∧ (astLoop ((parseTokens "create vpc\n").getD []) []).length = 1
  ∧ (AST ((parseTokens "create vpc\n").getD [])).map Node.tok =
      some ⟨Rule.Script, 0, 11⟩
  ∧ (∀ input : String, (runScript input).1 = true →
      (astLoop (tokensList (runScript input).2) []).length = 1 ∧
      (AST (tokensList (runScript input).2)).map Node.tok =
        some ⟨Rule.Script, 0, (runScript input).2.position⟩) := by
  refine ⟨?_, ?_, ?_, ?_, ?_, ?_⟩
  · intro r bg rest stack; simp [astLoop]
  · intro t n rest acc; rfl
  · intro t rest stack; rfl
  · simp [parseTokens, runScript, parseFuel, buf, script, withRule, withRestore,
      capture, pseq, pchoice, popt, pnot, pstar, emit, add, treeWrite, spacing,
      whiteSpacing, mustWhiteSpacing, equal, space, whitespace, endOfLine, statement,
      expr, declaration, comment, commentTail, params, param, value, valueSwitch,
      cidrBody, ipBody, rangeBody, digits, digit, identifier, identChar, stringChar,
      actionBody, actionSwitch, entityBody, entitySwitch, lit, str, matchChar,
      matchRange, matchDot, bufAt, restoreS, initS, mkBuffer, endOfFile, endSymbol,
      Token.zero, tokensList, astLoop, popChildren, Node.tok]
  · simp [parseTokens, runScript, parseFuel, buf, script, withRule, withRestore,
      capture, pseq, pchoice, popt, pnot, pstar, emit, add, treeWrite, spacing,
      whiteSpacing, mustWhiteSpacing, equal, space, whitespace, endOfLine, statement,
      expr, declaration, comment, commentTail, params, param, value, valueSwitch,
      cidrBody, ipBody, rangeBody, digits, digit, identifier, identChar, stringChar,
      actionBody, actionSwitch, entityBody, entitySwitch, lit, str, matchChar,
      matchRange, matchDot, bufAt, restoreS, initS, mkBuffer, endOfFile, endSymbol,
      Token.zero, tokensList, astLoop, popChildren, AST, Node.tok]
  · intro input h
    obtain ⟨pre, heq, hb, hpos⟩ := runScript_success_shape input h
    rw [heq]
    have hone := one_subtree_of_last_containing pre
      ⟨Rule.Script, 0, (runScript input).2.position⟩ rfl (Nat.ne_of_lt hpos) hb
    exact ⟨hone.2.1, hone.2.2⟩

set_option maxHeartbeats 16000000 in
set_option maxRecDepth 16384 in
/-- Witness for C7: the successful parse of `create vpc\n` instantiates
the universal single-root clause. -/
theorem ast_reconstruction_witness :
    (runScript "create vpc\n").1 = true ∧
    (astLoop (tokensList (runScript "create vpc\n").2) []).length = 1 ∧
    (AST (tokensList (runScript "create vpc\n").2)).map Node.tok =
      some ⟨Rule.Script, 0, (runScript "create vpc\n").2.position⟩ := by
  have hs : (runScript "create vpc\n").1 = true := by
    simp [runScript, parseFuel, buf, script, withRule, withRestore,
      capture, pseq, pchoice, popt, pnot, pstar, emit, add, treeWrite, spacing,
      whiteSpacing, mustWhiteSpacing, equal, space, whitespace, endOfLine, statement,
      expr, declaration, comment, commentTail, params, param, value, valueSwitch,
      cidrBody, ipBody, rangeBody, digits, digit, identifier, identChar, stringChar,
      actionBody, actionSwitch, entityBody, entitySwitch, lit, str, matchChar,
      matchRange, matchDot, bufAt, restoreS, initS, mkBuffer, endOfFile, endSymbol,
      Token.zero]
  have h := ast_reconstruction.2.2.2.2.2 "create vpc\n" hs
  exact ⟨hs, h.1, h.2⟩

/-- Counterexample for C9: the empty input does not parse — `Script`
requires at least one `Statement` — so the parse returns an error instead
of succeeding as the claim states. -/
theorem empty_input_fails : parseTokens "" = none := by decide

/-- C9 amended: an input comprising zero statements (the empty string, or
whitespace-only text) is rejected with a parse error — `Script <- Spacing
Statement+ EndOfFile` demands at least one statement — while a single
statement parses successfully. -/
theorem zero_statements_rejected :
    parseTokens "" = none
  ∧ parseTokens " " = none
  ∧ parseTokens "\n" = none
  ∧ (parseTokens "create vpc").isSome = true := by
  refine ⟨by decide, by decide, by decide, ?_⟩
  simp [parseTokens, runScript, parseFuel, buf, script, withRule, withRestore,
    capture, pseq, pchoice, popt, pnot, pstar, emit, add, treeWrite, spacing,
    whiteSpacing, mustWhiteSpacing, equal, space, whitespace, endOfLine, statement,
    expr, declaration, comment, commentTail, params, param, value, valueSwitch,
    cidrBody, ipBody, rangeBody, digits, digit, identifier, identChar, stringChar,
    actionBody, actionSwitch, entityBody, entitySwitch, lit, str, matchChar,
    matchRange, matchDot, bufAt, restoreS, initS, mkBuffer, endOfFile, endSymbol,
    Token.zero, tokensList]

/-- C10: `tokens32.AST` returns `nil` for the empty record list and for
any record list in which every record is zero-width (`begin = end`). -/
theorem ast_nil_without_structural_records :
    AST [] = none
  ∧ ∀ ps : List (Rule × Nat),
      AST (ps.map (fun p => (⟨p.1, p.2, p.2⟩ : Token))) = none := by
  refine ⟨rfl, ?_⟩
  intro ps
  have h : ∀ (l : List (Rule × Nat)) (st : List Node),
      astLoop (l.map (fun p => (⟨p.1, p.2, p.2⟩ : Token))) st = st := by
    intro l
    induction l with
    | nil => intro st; rfl
    | cons hd tl ih => intro st; simp [astLoop, ih]
  unfold AST
  rw [h]

set_option maxHeartbeats 16000000 in
set_option maxRecDepth 16384 in
/-- C1: parsing the two-line template declares `vpcid`, creates a vpc with
a cidr param, then creates a subnet referencing `$vpcid`, and `Execute`
replays the records as exactly the thirteen claimed callback invocations,
in order, with no other invocations. -/
theorem execute_two_statement_scenario :
    parseCallbacks "vpcid = create vpc cidr=10.0.0.0/16\ncreate subnet vpc=$vpcid cidr=10.0.0.1/24\n" =
      some [Callback.addDeclarationIdentifier (str ("vpcid")),
        Callback.addAction (str ("create")),
        Callback.addEntity (str ("vpc")),
        Callback.addParamKey (str ("cidr")),
        Callback.addParamCidrValue (str ("10.0.0.0/16")),
        Callback.LineDone,
        Callback.addAction (str ("create")),
        Callback.addEntity (str ("subnet")),
        Callback.addParamKey (str ("vpc")),
        Callback.addParamRefValue (str ("vpcid")),
        Callback.addParamKey (str ("cidr")),
        Callback.addParamCidrValue (str ("10.0.0.1/24")),
        Callback.LineDone] := by
  simp [parseCallbacks, runScript, parseFuel, buf, script, withRule, withRestore,
    capture, pseq, pchoice, popt, pnot, pstar, emit, add, treeWrite, spacing,
    whiteSpacing, mustWhiteSpacing, equal, space, whitespace, endOfLine, statement,
    expr, declaration, comment, commentTail, params, param, value, valueSwitch,
    cidrBody, ipBody, rangeBody, digits, digit, identifier, identChar, stringChar,
    actionBody, actionSwitch, entityBody, entitySwitch, lit, str, matchChar,
    matchRange, matchDot, bufAt, restoreS, initS, mkBuffer, endOfFile, endSymbol,
    Token.zero, tokensList, Execute, substr]

set_option maxHeartbeats 16000000 in
set_option maxRecDepth 16384 in
/-- C4: param-value dispatch follows the ordered choice Cidr, Ip,
IntRange, Int, then the leading-rune cases: `10.0.0.0/16` fires only the
cidr callback, `10.0.0.0` the ip callback, `5-10` the generic-value
callback, `42` the int callback; and because the Cidr/Ip separators are
the any-character primitive, `1x2x3x4/5` is accepted as a cidr. -/
theorem value_dispatch_ordered_choice :
    valueCallbacks "10.0.0.0/16" = some [Callback.addParamCidrValue (str ("10.0.0.0/16"))]
  ∧ valueCallbacks "10.0.0.0" = some [Callback.addParamIpValue (str ("10.0.0.0"))]
  ∧ valueCallbacks "5-10" = some [Callback.addParamValue (str ("5-10"))]
  ∧ valueCallbacks "42" = some [Callback.addParamIntValue (str ("42"))]
  ∧ valueCallbacks "1x2x3x4/5" = some [Callback.addParamCidrValue (str ("1x2x3x4/5"))] := by
  refine ⟨?_, ?_, ?_, ?_, ?_⟩ <;>
    simp [valueCallbacks, runValue, parseFuel, buf, withRule, withRestore,
      capture, pseq, pchoice, popt, pnot, pstar, emit, add, treeWrite,
      whiteSpacing, equal, spacing, space, whitespace, endOfLine, value, valueSwitch,
      cidrBody, ipBody, rangeBody, digits, digit, identifier, identChar, stringChar,
      lit, str, matchChar, matchRange, matchDot, bufAt, restoreS, initS, mkBuffer,
      endSymbol, Token.zero, tokensList, Execute, substr]

set_option maxHeartbeats 16000000 in
set_option maxRecDepth 16384 in
/-- C5: an identifier rune is accepted exactly when it is `'.'` (46),
`'_'` (95), `'-'` (45), an upper-case letter (65 to 90) or a lower-case
letter (97 to 122) — digits lie in none of these, so identifiers never
contain digits: `i-12345 = create instance` fails to parse while
`myvar = create instance` parses successfully as a declaration. -/
theorem identifier_digit_partition :
    (∀ (b : List Nat) (s : S),
        (identChar b s).1 = true ↔
          (bufAt b s.position = 46 ∨ bufAt b s.position = 95 ∨
           bufAt b s.position = 45 ∨
           (65 ≤ bufAt b s.position ∧ bufAt b s.position ≤ 90) ∨
           (97 ≤ bufAt b s.position ∧ bufAt b s.position ≤ 122)))
  ∧ parseTokens "i-12345 = create instance" = none
  ∧ (parseTokens "myvar = create instance").isSome = true := by
  refine ⟨?_, ?_, ?_⟩
  · intro b s
    unfold identChar matchChar matchRange
    generalize bufAt b s.position = c
    have h1 : Char.toNat '.' = 46 := rfl
    have h2 : Char.toNat '_' = 95 := rfl
    have h3 : Char.toNat '-' = 45 := rfl
    have h4 : Char.toNat 'A' = 65 := rfl
    have h5 : Char.toNat 'Z' = 90 := rfl
    have h6 : Char.toNat 'a' = 97 := rfl
    have h7 : Char.toNat 'z' = 122 := rfl
    rw [h1, h2, h3, h4, h5, h6, h7]
    constructor
    · intro h
      split_ifs at h <;> simp_all
    · intro h
      split_ifs <;> simp_all
      rw [if_neg (by omega)]
  all_goals
    simp [parseTokens, runScript, parseFuel, buf, script, withRule, withRestore,
      capture, pseq, pchoice, popt, pnot, pstar, emit, add, treeWrite, spacing,
      whiteSpacing, mustWhiteSpacing, equal, space, whitespace, endOfLine, statement,
      expr, declaration, comment, commentTail, params, param, value, valueSwitch,
      cidrBody, ipBody, rangeBody, digits, digit, identifier, identChar, stringChar,
      actionBody, actionSwitch, entityBody, entitySwitch, lit, str, matchChar,
      matchRange, matchDot, bufAt, restoreS, initS, mkBuffer, endOfFile, endSymbol,
      Token.zero, tokensList]

set_option maxHeartbeats 16000000 in
set_option maxRecDepth 16384 in
/-- C6: the executor fires `LineDone` exactly once per `Action3` or
`Action13` record in the token list (and for nothing else); `Action3` is
recorded once at the end of every successful `Expr`, `Action13` once by a
`//`-comment and never by a `#`-comment — so a `#` line before a statement
yields exactly one `LineDone` (the statement's own), a `//` line yields
two, and the `Comment` rule alone records an `Action13` marker only for
the `//` form. -/
theorem lineDone_comment_asymmetry :
    (∀ (b : List Nat) (toks : List Token) (text : List Nat),
        (Execute b toks text).count Callback.LineDone =
          (toks.filter (fun t => t.rule = Rule.Action3 ∨ t.rule = Rule.Action13)).length)
  ∧ parseCallbacks "# comment\ncreate vpc\n" =
      some [Callback.addAction (str ("create")), Callback.addEntity (str ("vpc")),
        Callback.LineDone]
  ∧ parseCallbacks "// comment\ncreate vpc\n" =
      some [Callback.LineDone, Callback.addAction (str ("create")),
        Callback.addEntity (str ("vpc")), Callback.LineDone]
  ∧ (runComment "#abc").1 = true
  ∧ tokensList (runComment "#abc").2 = [⟨Rule.Comment, 0, 4⟩]
  ∧ (runComment "//abc").1 = true
  ∧ tokensList (runComment "//abc").2 =
      [⟨Rule.Action13, 5, 5⟩, ⟨Rule.Comment, 0, 5⟩] := by
  refine ⟨?_, ?_, ?_, by decide, by decide, by decide, by decide⟩
  · intro b toks text
    induction toks generalizing text with
    | nil => simp [Execute]
    | cons t rest ih =>
      rcases t with ⟨r, bg, e⟩
      cases r <;> simp [Execute, ih, List.count_cons]
  all_goals
    simp [parseCallbacks, runScript, parseFuel, buf, script, withRule, withRestore,
      capture, pseq, pchoice, popt, pnot, pstar, emit, add, treeWrite, spacing,
      whiteSpacing, mustWhiteSpacing, equal, space, whitespace, endOfLine, statement,
      expr, declaration, comment, commentTail, params, param, value, valueSwitch,
      cidrBody, ipBody, rangeBody, digits, digit, identifier, identChar, stringChar,
      actionBody, actionSwitch, entityBody, entitySwitch, lit, str, matchChar,
      matchRange, matchDot, bufAt, restoreS, initS, mkBuffer, endOfFile, endSymbol,
      Token.zero, tokensList, Execute, substr]

set_option maxHeartbeats 16000000 in
set_option maxRecDepth 16384 in
/-- Counterexample for C8: the grammar accepts a bare `'\r'` as a line
terminator, but the diagnostic scan increments the line count only on
`'\n'`: for the failing input `create vpc\rcreate foo` (whose rune 10 is
`'\r'`, code 13) the rendered diagnostic reports line 1 for both offsets
of the failure span, whereas a scan that counts line-terminator characters
as the grammar defines them places offset 17 on line 2. -/
theorem diag_bare_cr_counterexample :
    parseDiag "create vpc\rcreate foo" =
      some ⟨"Whitespace", ⟨1, 18⟩, ⟨1, 19⟩, str (" ")⟩
  ∧ bufAt (buf "create vpc\rcreate foo") 10 = 13
  ∧ specTranslatePosition (buf "create vpc\rcreate foo") 17 = ⟨2, 7⟩
  ∧ translatePosition (buf "create vpc\rcreate foo") 17 = ⟨1, 18⟩ := by
  refine ⟨?_, by decide, by decide, by decide⟩
  simp [parseDiag, runScript, parseFuel, buf, script, withRule, withRestore,
    capture, pseq, pchoice, popt, pnot, pstar, emit, add, treeWrite, spacing,
    whiteSpacing, mustWhiteSpacing, equal, space, whitespace, endOfLine, statement,
    expr, declaration, comment, commentTail, params, param, value, valueSwitch,
    cidrBody, ipBody, rangeBody, digits, digit, identifier, identChar, stringChar,
    actionBody, actionSwitch, entityBody, entitySwitch, lit, str, matchChar,
    matchRange, matchDot, bufAt, restoreS, initS, mkBuffer, endOfFile, endSymbol,
    Token.zero, errorDiag, translatePosition, positionScan, rul3s, substr]

set_option maxHeartbeats 16000000 in
set_option maxRecDepth 16384 in
/-- C8 amended: the diagnostic names the recorded rule, quotes the text
between the failure's begin and end offsets, and reports 1-based line and
symbol numbers computed by a single forward scan that increments the line
count on `'\n'` only — a bare `'\r'` advances the column instead; the
failing input `create vpc\ncreate foo` is reported on line 2 with 1-based
columns. -/
theorem diag_rendering_newline_scan :
    (∀ (rest : List Nat) (i line symbol : Nat),
        positionScan (10 :: rest) i line symbol =
          (i, ⟨line + 1, 0⟩) :: positionScan rest (i + 1) (line + 1) 0)
  ∧ (∀ (rest : List Nat) (i line symbol : Nat),
        positionScan (13 :: rest) i line symbol =
          (i, ⟨line, symbol + 1⟩) :: positionScan rest (i + 1) line (symbol + 1))
  ∧ (∀ (buffer : List Nat) (mx : Token),
        errorDiag buffer mx = ⟨rul3s mx.rule,
          translatePosition buffer mx.begin, translatePosition buffer mx.endPos,
          substr buffer mx.begin mx.endPos⟩)
  ∧ parseDiag "create vpc\ncreate foo" =
      some ⟨"Whitespace", ⟨2, 7⟩, ⟨2, 8⟩, str (" ")⟩ := by
  refine ⟨?_, ?_, ?_, ?_⟩
  · intro rest i line symbol; simp [positionScan]
  · intro rest i line symbol; simp [positionScan]
  · intro buffer mx; rfl
  · simp [parseDiag, runScript, parseFuel, buf, script, withRule, withRestore,
      capture, pseq, pchoice, popt, pnot, pstar, emit, add, treeWrite, spacing,
      whiteSpacing, mustWhiteSpacing, equal, space, whitespace, endOfLine, statement,
      expr, declaration, comment, commentTail, params, param, value, valueSwitch,
      cidrBody, ipBody, rangeBody, digits, digit, identifier, identChar, stringChar,
      actionBody, actionSwitch, entityBody, entitySwitch, lit, str, matchChar,
      matchRange, matchDot, bufAt, restoreS, initS, mkBuffer, endOfFile, endSymbol,
      Token.zero, errorDiag, translatePosition, positionScan, rul3s, substr]

end Ast
